import Mathlib

/-!
A shallow embedding of the hierarchical virtual-memory translator of this
repository (`src/VirtualMemory.cpp`) together with the physical-memory
simulator it drives (`src/PhysicalMemory.cpp`), and theorems checking the
natural-language specification against it.

Machine integers (`uint64_t`) are modelled as `Nat`; the signed `word_t` is
modelled as `Int`, and the C++ conversion `(uint64_t)entry` of a `word_t`
into an unsigned frame index is modelled by reduction modulo `2 ^ 64`
(`intToU64`).  `PMread` has no side effect in the simulator besides copying
one word out, so table reads are modelled as pure lookups in the RAM array;
the mutating simulator calls (`PMwrite`, `PMevict`, `PMrestore`) are logged
in an event trace carried by the state, and the simulator's `assert`s are
tracked by a boolean `ok` flag.
-/

set_option maxRecDepth 200000

namespace VMem

/-- Modelled from the spec: the compile-time constants of
`MemoryConstants.h`, which is not part of `src/`.  Per spec §3 they are the
three bit widths, with everything else derived:
`PAGE_SIZE = 2^OFFSET_WIDTH`, `RAM_SIZE = 2^PHYSICAL_ADDRESS_WIDTH`,
`VIRTUAL_MEMORY_SIZE = 2^VIRTUAL_ADDRESS_WIDTH`,
`NUM_FRAMES = RAM_SIZE / PAGE_SIZE`, `NUM_PAGES = VIRTUAL_MEMORY_SIZE /
PAGE_SIZE`, and
`TABLES_DEPTH = ceil((VIRTUAL_ADDRESS_WIDTH - OFFSET_WIDTH) / OFFSET_WIDTH)`. -/
structure Cfg where
  offsetWidth : Nat
  physicalAddressWidth : Nat
  virtualAddressWidth : Nat
deriving DecidableEq, Repr

def PAGE_SIZE (cfg : Cfg) : Nat := 2 ^ cfg.offsetWidth

def RAM_SIZE (cfg : Cfg) : Nat := 2 ^ cfg.physicalAddressWidth

def VIRTUAL_MEMORY_SIZE (cfg : Cfg) : Nat := 2 ^ cfg.virtualAddressWidth

def NUM_FRAMES (cfg : Cfg) : Nat := RAM_SIZE cfg / PAGE_SIZE cfg

def NUM_PAGES (cfg : Cfg) : Nat := VIRTUAL_MEMORY_SIZE cfg / PAGE_SIZE cfg

def TABLES_DEPTH (cfg : Cfg) : Nat :=
  (cfg.virtualAddressWidth - cfg.offsetWidth + cfg.offsetWidth - 1) / cfg.offsetWidth

/-- The representative constants of spec §8:
`OFFSET_WIDTH = 4`, `PHYSICAL_ADDRESS_WIDTH = 6`, `VIRTUAL_ADDRESS_WIDTH = 12`,
giving `PAGE_SIZE = 16`, `NUM_FRAMES = 4`, `NUM_PAGES = 256`,
`TABLES_DEPTH = 2`, `RAM_SIZE = 64`, `VIRTUAL_MEMORY_SIZE = 4096`. -/
def specCfg : Cfg := ⟨4, 6, 12⟩

/-- The C++ conversion of a signed `word_t` value to `uint64_t`
(wrap modulo `2 ^ 64`). -/
def intToU64 (w : Int) : Nat := (w % (2 ^ 64 : Int)).toNat

/-- One call into the physical-memory simulator that can change its state
(reads are pure in the simulator and are not logged). -/
inductive PMEvent where
  | write (pa : Nat) (w : Int)
  | evict (frame page : Nat)
  | restore (frame page : Nat)
deriving DecidableEq, Repr

/-- State of the physical-memory simulator (`src/PhysicalMemory.cpp`):
the RAM word array, the swap map from page index to saved page contents,
the chronological trace of mutating simulator calls, and a flag recording
whether every simulator `assert` held so far. -/
structure PMState where
  ram : Nat → Int
  swap : Nat → Option (Nat → Int)
  trace : List PMEvent
  ok : Bool

/-- The simulator's starting state: RAM is zero-filled on first use
(`initialize()` in `src/PhysicalMemory.cpp`), swap starts empty. -/
def initialState : PMState :=
  { ram := fun _ => 0, swap := fun _ => none, trace := [], ok := true }

/-- Source `PMread` (pure part): copy one word out of RAM. -/
def PMreadVal (st : PMState) (pa : Nat) : Int := st.ram pa

/-- Source `PMwrite`: store one word; asserts `pa < RAM_SIZE`. -/
def PMwriteT (cfg : Cfg) (st : PMState) (pa : Nat) (w : Int) : PMState :=
  { st with ram := Function.update st.ram pa w,
            trace := st.trace ++ [.write pa w],
            ok := st.ok && decide (pa < RAM_SIZE cfg) }

/-- Source `PMevict`: move the contents of frame `f` into swap under key `q`;
asserts that `q` is not already in swap, `f < NUM_FRAMES`, `q < NUM_PAGES`. -/
def PMevictT (cfg : Cfg) (st : PMState) (f q : Nat) : PMState :=
  { st with swap := Function.update st.swap q
              (some (fun j => st.ram (f * PAGE_SIZE cfg + j))),
            trace := st.trace ++ [.evict f q],
            ok := st.ok && decide ((st.swap q).isNone ∧
                    f < NUM_FRAMES cfg ∧ q < NUM_PAGES cfg) }

/-- Source `PMrestore`: if `q` is in swap, move its contents back into frame `f`
and erase the swap entry; otherwise a no-op (first touch of the page).
Asserts `f < NUM_FRAMES`. -/
def PMrestoreT (cfg : Cfg) (st : PMState) (f q : Nat) : PMState :=
  let st1 : PMState :=
    { st with trace := st.trace ++ [.restore f q],
              ok := st.ok && decide (f < NUM_FRAMES cfg) }
  match st.swap q with
  | none => st1
  | some page =>
      { st1 with
          ram := fun a =>
            if f * PAGE_SIZE cfg ≤ a ∧ a < f * PAGE_SIZE cfg + PAGE_SIZE cfg
            then page (a - f * PAGE_SIZE cfg) else st.ram a,
          swap := Function.update st.swap q none }

/-- Source `extractBits(virtualAddress, level)`: drop the offset bits, then take the
level's `OFFSET_WIDTH`-bit slice, level 0 being the most significant. -/
def extractBits (cfg : Cfg) (virtualAddress : Nat) (level : Nat) : Nat :=
  let pageNumber := virtualAddress >>> cfg.offsetWidth
  let shift := (TABLES_DEPTH cfg - 1 - level) * cfg.offsetWidth
  let mask := 2 ^ cfg.offsetWidth - 1
  (pageNumber >>> shift) &&& mask

/-- Source `getPageNumber(virtualAddress)`. -/
def getPageNumber (cfg : Cfg) (virtualAddress : Nat) : Nat :=
  virtualAddress >>> cfg.offsetWidth

/-- Source `getOffset(virtualAddress)`. -/
def getOffset (cfg : Cfg) (virtualAddress : Nat) : Nat :=
  virtualAddress &&& (2 ^ cfg.offsetWidth - 1)

/-- Source `cyclicalDistance(page1, page2)`:
`min(|page1 - page2|, NUM_PAGES - |page1 - page2|)`. -/
def cyclicalDistance (cfg : Cfg) (page1 page2 : Nat) : Nat :=
  let direct := if page1 > page2 then page1 - page2 else page2 - page1
  let wraparound := NUM_PAGES cfg - direct
  if direct < wraparound then direct else wraparound

/-- The reference-passed accumulators of `dfsSearch`, bundled:
`bestFrame`, `bestType` (0 = none, 1 = empty table, 2 = unused frame,
3 = evict), `bestPageToEvict`, `bestParentFrame`, `bestParentIndex`,
`maxFrame`, `bestDistance`. -/
structure SearchState where
  bestFrame : Nat
  bestType : Nat
  bestPageToEvict : Nat
  bestParentFrame : Nat
  bestParentIndex : Nat
  maxFrame : Nat
  bestDistance : Nat
deriving DecidableEq, Repr

def initialSearch : SearchState := ⟨0, 0, 0, 0, 0, 0, 0⟩

/-- The leaf case of `dfsSearch` (`depth == TABLES_DEPTH`): consider the
frame as an eviction candidate. -/
def dfsLeaf (cfg : Cfg) (targetPage fi vab pf pi : Nat) (s : SearchState) :
    SearchState :=
  let currentPage := vab >>> cfg.offsetWidth
  if currentPage ≠ targetPage then
    let distance := cyclicalDistance cfg targetPage currentPage
    if s.bestType ≠ 1 ∧ s.bestType ≠ 2 then
      if s.bestType ≠ 3 ∨ distance > s.bestDistance then
        { s with bestType := 3, bestFrame := fi, bestPageToEvict := currentPage,
                 bestParentFrame := pf, bestParentIndex := pi,
                 bestDistance := distance }
      else s
    else s
  else s

/-- One iteration of the entry-scanning loop of `dfsSearch` over slot `i` of
table frame `fi`: the accumulator is `(isEmpty, isInTargetPath, search
state)`, and `rec` is the recursion into a child
(`rec childFrame childVab parentFrame parentIndex`). -/
def dfsStep (cfg : Cfg) (ram : Nat → Int)
    (rec : Nat → Nat → Nat → Nat → SearchState → SearchState)
    (fi vab depth targetBits : Nat)
    (acc : Bool × Bool × SearchState) (i : Nat) : Bool × Bool × SearchState :=
  let entry := ram (fi * PAGE_SIZE cfg + i)
  if entry ≠ 0 then
    let shift := (TABLES_DEPTH cfg - 1 - depth) * cfg.offsetWidth
    let nextVab := vab ||| (i <<< shift)
    let inPath := decide (i = targetBits) || acc.2.1
    (false, inPath, rec (intToU64 entry) nextVab fi i acc.2.2)
  else acc

/-- Source `dfsSearch`: the depth-first traversal of the table tree.  The C++
version recurses on `depth` up to `TABLES_DEPTH`; here the first argument is
the remaining depth `fuel = TABLES_DEPTH - depth` (so `fuel = 0` is the leaf
case `depth == TABLES_DEPTH`), making the recursion structural.  The
remaining arguments are `frameIndex`, `virtualAddressBase`, `parentFrame`,
`parentIndex` and the accumulator bundle. -/
def dfsSearch (cfg : Cfg) (ram : Nat → Int) (targetPage : Nat) :
    Nat → Nat → Nat → Nat → Nat → SearchState → SearchState
  | 0, fi, vab, pf, pi, s =>
      if fi = 0 ∨ NUM_FRAMES cfg ≤ fi then s
      else
        let s := if s.maxFrame < fi then { s with maxFrame := fi } else s
        dfsLeaf cfg targetPage fi vab pf pi s
  | fuel + 1, fi, vab, pf, pi, s =>
      if fi = 0 ∨ NUM_FRAMES cfg ≤ fi then s
      else
        let s := if s.maxFrame < fi then { s with maxFrame := fi } else s
        let depth := TABLES_DEPTH cfg - (fuel + 1)
        let targetBits := extractBits cfg (targetPage <<< cfg.offsetWidth) depth
        let acc := List.foldl
          (dfsStep cfg ram (dfsSearch cfg ram targetPage fuel) fi vab depth
            targetBits)
          (true, false, s) (List.range (PAGE_SIZE cfg))
        if acc.1 && !acc.2.1 && decide (acc.2.2.bestType ≠ 1) then
          { acc.2.2 with bestType := 1, bestFrame := fi,
                         bestParentFrame := pf, bestParentIndex := pi }
        else acc.2.2

/-- The out-parameters of `findFrame`. -/
structure FFResult where
  frame : Nat
  ftype : Nat
  pageToEvict : Nat
  parentFrame : Nat
  parentIndex : Nat
deriving DecidableEq, Repr

/-- One iteration of `findFrame`'s loop over the root table's slots. -/
def rootStep (cfg : Cfg) (ram : Nat → Int) (targetPage : Nat)
    (s : SearchState) (i : Nat) : SearchState :=
  let entry := ram i
  if entry ≠ 0 then
    let virtualBase := i <<< ((TABLES_DEPTH cfg - 1) * cfg.offsetWidth)
    dfsSearch cfg ram targetPage (TABLES_DEPTH cfg - 1) (intToU64 entry)
      virtualBase 0 i s
  else s

/-- Source `findFrame`: run the DFS from every non-zero root slot, then prefer a
never-used frame (`maxFrame + 1`) unless an empty table was found, with a
final fallback to frame 1. -/
def findFrame (cfg : Cfg) (ram : Nat → Int) (targetPage : Nat) : FFResult :=
  let s := List.foldl (rootStep cfg ram targetPage) initialSearch
    (List.range (PAGE_SIZE cfg))
  let s := if s.maxFrame + 1 < NUM_FRAMES cfg ∧ s.bestType ≠ 1 then
      { s with bestType := 2, bestFrame := s.maxFrame + 1 }
    else s
  let s := if s.bestFrame = 0 ∧ s.bestType = 0 then
      (if 1 < NUM_FRAMES cfg then { s with bestType := 2, bestFrame := 1 }
       else s)
    else s
  ⟨s.bestFrame, s.bestType, s.bestPageToEvict, s.bestParentFrame,
    s.bestParentIndex⟩

/-- Source `removeReference(parentFrame, parentIndex)`: zero the parent slot,
guarded by bounds checks. -/
def removeReference (cfg : Cfg) (st : PMState) (pf pi : Nat) : PMState :=
  if pf < NUM_FRAMES cfg ∧ pi < PAGE_SIZE cfg then
    PMwriteT cfg st (pf * PAGE_SIZE cfg + pi) 0
  else st

/-- The frame-clearing loop of `translateAddress` (zero every word of the
frame that will serve as a table). -/
def clearFrame (cfg : Cfg) (st : PMState) (f : Nat) : PMState :=
  List.foldl (fun st i => PMwriteT cfg st (f * PAGE_SIZE cfg + i) 0) st
    (List.range (PAGE_SIZE cfg))

/-- The commit block of `translateAddress` after `findFrame` produced a
usable frame: unlink / evict according to the frame type, then clear the
frame (table role) or restore the page into it (leaf role), and finally
write the new child pointer into the faulting slot `tableAddress`. -/
def commitFrame (cfg : Cfg) (st : PMState) (ff : FFResult) (isTable : Bool)
    (tableAddress pageNumber : Nat) : PMState :=
  let st := if ff.ftype = 1 then
      removeReference cfg st ff.parentFrame ff.parentIndex
    else if ff.ftype = 3 then
      PMevictT cfg (removeReference cfg st ff.parentFrame ff.parentIndex)
        ff.frame ff.pageToEvict
    else st
  let st := if isTable then clearFrame cfg st ff.frame
    else PMrestoreT cfg st ff.frame pageNumber
  PMwriteT cfg st tableAddress (Int.ofNat ff.frame)

/-- The level loop of `translateAddress`, structurally recursing on the
remaining levels `fuel = TABLES_DEPTH - level`; at `fuel = 0` the loop is
done and the physical address is assembled from the offset. -/
def translateLoop (cfg : Cfg) (v : Nat) :
    Nat → Nat → PMState → Option Nat × PMState
  | 0, cf, st =>
      let pa := cf * PAGE_SIZE cfg + getOffset cfg v
      if RAM_SIZE cfg ≤ pa then (none, st) else (some pa, st)
  | fuel + 1, cf, st =>
      let level := TABLES_DEPTH cfg - (fuel + 1)
      let index := extractBits cfg v level
      let tableAddress := cf * PAGE_SIZE cfg + index
      if RAM_SIZE cfg ≤ tableAddress then (none, st)
      else
        let entry := PMreadVal st tableAddress
        if entry = 0 then
          let ff := findFrame cfg st.ram (getPageNumber cfg v)
          if ff.frame = 0 ∨ NUM_FRAMES cfg ≤ ff.frame then (some 0, st)
          else
            let st := commitFrame cfg st ff
              (decide (level < TABLES_DEPTH cfg - 1)) tableAddress
              (getPageNumber cfg v)
            translateLoop cfg v fuel ff.frame st
        else translateLoop cfg v fuel (intToU64 entry) st

/-- Source `translateAddress`: walk all `TABLES_DEPTH` levels starting from the
root frame 0.  `none` models the `INVALID_PHYSICAL_ADDRESS` sentinel. -/
def translateAddress (cfg : Cfg) (st : PMState) (v : Nat) :
    Option Nat × PMState :=
  translateLoop cfg v (TABLES_DEPTH cfg) 0 st

/-- Source `VMinitialize`: zero the root frame. -/
def VMinitializeRoot (cfg : Cfg) (st : PMState) : PMState :=
  List.foldl (fun st i => PMwriteT cfg st i 0) st (List.range (PAGE_SIZE cfg))

/-- Source `VMread`: returns `(returnValue, what was stored into *value, state)`;
the middle component is `none` when `*value` was not written. -/
def VMread (cfg : Cfg) (st : PMState) (v : Nat) :
    Nat × Option Int × PMState :=
  if VIRTUAL_MEMORY_SIZE cfg ≤ v then (0, none, st)
  else
    let (paOpt, st) := translateAddress cfg st v
    match paOpt with
    | none => (0, none, st)
    | some pa => (1, some (PMreadVal st pa), st)

/-- Source `VMwrite`: returns `(returnValue, state)`. -/
def VMwrite (cfg : Cfg) (st : PMState) (v : Nat) (value : Int) :
    Nat × PMState :=
  if VIRTUAL_MEMORY_SIZE cfg ≤ v then (0, st)
  else
    let (paOpt, st) := translateAddress cfg st v
    match paOpt with
    | none => (0, st)
    | some pa => (1, PMwriteT cfg st pa value)

/-- States reachable from the simulator's initial state through the public
surface (`VMinitialize`, `VMread`, `VMwrite` with arbitrary arguments). -/
inductive Reachable (cfg : Cfg) : PMState → Prop where
  | init : Reachable cfg initialState
  | vmInit {st} : Reachable cfg st → Reachable cfg (VMinitializeRoot cfg st)
  | read {st} (v : Nat) : Reachable cfg st →
      Reachable cfg (VMread cfg st v).2.2
  | write {st} (v : Nat) (x : Int) : Reachable cfg st →
      Reachable cfg (VMwrite cfg st v x).2

/-- Observation: walk the table tree along page `q`'s level indices; `some
f` means a leaf frame `f` currently maps page `q` (spec §8: "no leaf frame
currently maps page `q`"). -/
def leafWalk (cfg : Cfg) (st : PMState) (q : Nat) :
    Nat → Nat → Option Nat
  | 0, cf => some cf
  | fuel + 1, cf =>
      let level := TABLES_DEPTH cfg - (fuel + 1)
      let entry := st.ram (cf * PAGE_SIZE cfg +
        extractBits cfg (q <<< cfg.offsetWidth) level)
      if entry = 0 then none
      else if intToU64 entry < NUM_FRAMES cfg then
        leafWalk cfg st q fuel (intToU64 entry)
      else none

/-- Page `q` is resident: some leaf frame maps it. -/
def residentLeaf (cfg : Cfg) (st : PMState) (q : Nat) : Bool :=
  (leafWalk cfg st q (TABLES_DEPTH cfg) 0).isSome

/-- The concatenation of per-level slot indices, most significant first
(spec §4.D: the leaf page index "is the concatenation of the per-level
indices chosen on the way down"). -/
def concatPath (cfg : Cfg) (l : List Nat) : Nat :=
  l.foldl (fun a i => a * PAGE_SIZE cfg + i) 0

end VMem

namespace VMem

/-- Spec §4.B's address arithmetic, stated with division and remainder:
level index `idx(v,d)` of a page number `p`. -/
def specLevelIndex (cfg : Cfg) (p d : Nat) : Nat :=
  (p / 2 ^ ((TABLES_DEPTH cfg - 1 - d) * cfg.offsetWidth)) % PAGE_SIZE cfg

/-- State used for claim C1: the fresh simulator state after
`VMwrite(13, 3)` under the representative constants. -/
def c1State : PMState := (VMwrite specCfg initialState 13 3).2

/-- C1: the round-trip property fails on the code.  From the fresh state,
`VMwrite(13, 3)` succeeds (returns 1), no simulator assert fires, and the
immediately following `VMread(13)` — with no intervening write at all —
succeeds but yields 0 instead of 3.  (The level-1 fault selects the table
just created at level 0 as an `EMPTY_TABLE` candidate, unlinks it from the
root and the next access rebuilds the path over the cleared frame.) -/
theorem claim1_roundTrip_fails :
    (VMwrite specCfg initialState 13 3).1 = 1 ∧
    c1State.ok = true ∧
    (VMread specCfg c1State 13).1 = 1 ∧
    (VMread specCfg c1State 13).2.1 = some 0 ∧
    some (0 : Int) ≠ some 3 := by
  decide

/-- State used for claim C2: root slot 1 points to table frame 2, whose
slot 0 points to leaf frame 3; so frame 3 holds the page with path `[1, 0]`,
i.e. page `1 * 16 + 0 = 16`. -/
def c2State : PMState :=
  { initialState with
      ram := fun a => if a = 1 then 2 else if a = 32 then 3 else 0 }

/-- C2: the victim page index reported by the frame finder is not the
concatenation of the per-level slot indices.  For the tree with the single
leaf at path `[1, 0]` (page 16, held in frame 3) and target page 0, the
finder reports the leaf as the eviction victim but with page index 1
(`virtualAddressBase >> OFFSET_WIDTH` drops the last level's index), not
`concatPath [1, 0] = 16`. -/
theorem claim2_victimIndex_not_path_concat :
    findFrame specCfg c2State.ram 0 = ⟨3, 3, 1, 2, 0⟩ ∧
    leafWalk specCfg c2State 16 (TABLES_DEPTH specCfg) 0 = some 3 ∧
    concatPath specCfg [1, 0] = 16 ∧
    (findFrame specCfg c2State.ram 0).pageToEvict ≠ 16 := by
  decide

/-- State used for claim C3: root slot 0 points to frame 1, and frame 1 is
an all-zero table (exactly the state the translator creates one level up
while faulting in a page whose level-0 index is 0). -/
def c3State : PMState :=
  { initialState with ram := Function.update (fun _ => 0) 0 1 }

/-- C3: the path-protection filter does not hold.  Frame 1 is an all-zero
table lying on the target path of page 0 (its root slot, `parentIndex = 0`,
equals the target's level-0 index `extractBits(0 << OFFSET_WIDTH, 0) = 0`),
yet the finder selects it as the `EMPTY_TABLE` candidate: the code's
`isInTargetPath` flag is only raised by a non-zero entry at the target
slot, which an empty table cannot have. -/
theorem claim3_emptyTable_on_target_path_chosen :
    findFrame specCfg c3State.ram 0 = ⟨1, 1, 0, 0, 0⟩ ∧
    extractBits specCfg (0 <<< specCfg.offsetWidth) 0 = 0 ∧
    (List.range (PAGE_SIZE specCfg)).all
      (fun j => c3State.ram (PAGE_SIZE specCfg + j) == 0) = true := by
  decide

/-- State used for claim C4: root slot 1 points to table frame 1; frame 1's
slot 0 points to leaf frame 2 (page 16) and slot 15 to leaf frame 3
(page 31). -/
def c4State : PMState :=
  { initialState with
      ram := fun a =>
        if a = 1 then 1 else if a = 16 then 2 else if a = 31 then 3 else 0 }

/-- C4: the chosen eviction victim does not maximise the cyclic distance to
the target.  With target page 0 and resident leaves 16 (frame 2) and 31
(frame 3), `cyclicDist(0, 31) = 31 > 16 = cyclicDist(0, 16)`, so the claim
requires frame 3; the finder picks frame 2 (both leaves look like "page 1"
to it, tying at distance 1, and the first-encountered leaf wins). -/
theorem claim4_victim_not_max_distance :
    findFrame specCfg c4State.ram 0 = ⟨2, 3, 1, 1, 0⟩ ∧
    leafWalk specCfg c4State 16 (TABLES_DEPTH specCfg) 0 = some 2 ∧
    leafWalk specCfg c4State 31 (TABLES_DEPTH specCfg) 0 = some 3 ∧
    cyclicalDistance specCfg 0 31 > cyclicalDistance specCfg 0 16 := by
  decide

/-- C5: an out-of-range virtual address makes both accessors fail with
return value 0, with the physical-memory state (RAM, swap, call trace)
unchanged and `*value` untouched (the `none` in `VMread`'s middle
component); since the state — including the trace of simulator calls — is
returned as-is, no `PMwrite`/`PMevict`/`PMrestore` happened, and the
accessors return before the translator runs, so no `PMread` happens
either. -/
theorem claim5_outOfRange_no_side_effects (cfg : Cfg) (st : PMState)
    (v : Nat) (x : Int) (h : VIRTUAL_MEMORY_SIZE cfg ≤ v) :
    VMread cfg st v = (0, none, st) ∧ VMwrite cfg st v x = (0, st) := by
  constructor
  · simp [VMread, h]
  · simp [VMwrite, h]

/-- Witness for C5 at the representative constants:
`VIRTUAL_MEMORY_SIZE = 4096` is out of range. -/
theorem claim5_witness :
    VMread specCfg initialState 4096 = (0, none, initialState) ∧
    VMwrite specCfg initialState 4096 7 = (0, initialState) :=
  claim5_outOfRange_no_side_effects specCfg initialState 4096 7 (by decide)

/-- C9: the implementation's bit extraction matches the specified layout:
the page number is `v / PAGE_SIZE`, the offset is `v % PAGE_SIZE`, the
level-`d` index of `v` is `idx(v, d)` with level 0 the most significant,
and the path-protection call `extractBits(targetPage << OFFSET_WIDTH, d)`
made inside the frame finder computes exactly the same `idx` of the target
page — the same extraction function serves both translation and path
protection. -/
theorem claim9_bit_layout (cfg : Cfg) (v p d : Nat) :
    extractBits cfg v d = specLevelIndex cfg (v / PAGE_SIZE cfg) d ∧
    getPageNumber cfg v = v / PAGE_SIZE cfg ∧
    getOffset cfg v = v % PAGE_SIZE cfg ∧
    extractBits cfg (p <<< cfg.offsetWidth) d = specLevelIndex cfg p d := by
  have hpos : 0 < 2 ^ cfg.offsetWidth := Nat.pos_pow_of_pos _ (by omega)
  unfold extractBits specLevelIndex getPageNumber getOffset PAGE_SIZE
  refine ⟨?_, ?_, ?_, ?_⟩
  · simp [Nat.shiftRight_eq_div_pow, Nat.and_pow_two_sub_one_eq_mod]
  · simp [Nat.shiftRight_eq_div_pow]
  · simp [Nat.and_pow_two_sub_one_eq_mod]
  · simp [Nat.shiftRight_eq_div_pow, Nat.shiftLeft_eq,
      Nat.and_pow_two_sub_one_eq_mod, Nat.mul_div_cancel _ hpos]

end VMem

namespace VMem

/-- The simulator calls that `commitFrame` makes between the eviction and
the final pointer write: the clearing writes for a table role, or the
restore for a leaf role. -/
def commitMid (cfg : Cfg) (ff : FFResult) (isTable : Bool)
    (pageNumber : Nat) : List PMEvent :=
  if isTable then
    (List.range (PAGE_SIZE cfg)).map
      (fun i => PMEvent.write (ff.frame * PAGE_SIZE cfg + i) 0)
  else [PMEvent.restore ff.frame pageNumber]

@[simp]
theorem PMwriteT_trace (cfg : Cfg) (st : PMState) (pa : Nat) (w : Int) :
    (PMwriteT cfg st pa w).trace = st.trace ++ [PMEvent.write pa w] := rfl

@[simp]
theorem PMevictT_trace (cfg : Cfg) (st : PMState) (f q : Nat) :
    (PMevictT cfg st f q).trace = st.trace ++ [PMEvent.evict f q] := rfl

@[simp]
theorem PMrestoreT_trace (cfg : Cfg) (st : PMState) (f q : Nat) :
    (PMrestoreT cfg st f q).trace = st.trace ++ [PMEvent.restore f q] := by
  unfold PMrestoreT
  cases h : st.swap q <;> simp [h]

theorem clearFold_trace (cfg : Cfg) (f : Nat) :
    ∀ (l : List Nat) (st : PMState),
      (List.foldl (fun st i => PMwriteT cfg st (f * PAGE_SIZE cfg + i) 0) st
        l).trace =
      st.trace ++ l.map (fun i => PMEvent.write (f * PAGE_SIZE cfg + i) 0)
  | [], st => by simp
  | i :: l, st => by
      rw [List.foldl_cons, clearFold_trace cfg f l]
      simp

@[simp]
theorem clearFrame_trace (cfg : Cfg) (st : PMState) (f : Nat) :
    (clearFrame cfg st f).trace =
      st.trace ++ (List.range (PAGE_SIZE cfg)).map
        (fun i => PMEvent.write (f * PAGE_SIZE cfg + i) 0) :=
  clearFold_trace cfg f (List.range (PAGE_SIZE cfg)) st

/-- C6: ordering of the `EVICT` commit.  Whenever the translator handles an
`EVICT` result (`ftype = 3`, with the parent link in bounds as the finder
guarantees), the trace of simulator calls it appends is exactly: first the
write of 0 to the victim's parent slot (the unlink), then the `PMevict`
swap-out of the victim page, then the clearing/restore calls, and only then
the write of the new child pointer into the faulting table slot. -/
theorem claim6_unlink_then_evict_then_link (cfg : Cfg) (st : PMState)
    (ff : FFResult) (isTable : Bool) (tableAddress pageNumber : Nat)
    (h3 : ff.ftype = 3) (hpf : ff.parentFrame < NUM_FRAMES cfg)
    (hpi : ff.parentIndex < PAGE_SIZE cfg) :
    (commitFrame cfg st ff isTable tableAddress pageNumber).trace =
      st.trace ++
        PMEvent.write (ff.parentFrame * PAGE_SIZE cfg + ff.parentIndex) 0 ::
        PMEvent.evict ff.frame ff.pageToEvict ::
        (commitMid cfg ff isTable pageNumber ++
          [PMEvent.write tableAddress (Int.ofNat ff.frame)]) := by
  have hrm : removeReference cfg st ff.parentFrame ff.parentIndex =
      PMwriteT cfg st (ff.parentFrame * PAGE_SIZE cfg + ff.parentIndex) 0 := by
    unfold removeReference
    rw [if_pos ⟨hpf, hpi⟩]
  unfold commitFrame
  rw [h3, hrm]
  cases isTable <;> simp [commitMid]

/-- Witness for C6: a concrete `EVICT` commit from the fresh state, leaf
role. -/
theorem claim6_witness :
    (commitFrame specCfg initialState ⟨2, 3, 5, 1, 4⟩ false 3 7).trace =
      initialState.trace ++
        PMEvent.write (1 * PAGE_SIZE specCfg + 4) 0 ::
        PMEvent.evict 2 5 ::
        (commitMid specCfg ⟨2, 3, 5, 1, 4⟩ false 7 ++
          [PMEvent.write 3 (Int.ofNat 2)]) :=
  claim6_unlink_then_evict_then_link specCfg initialState ⟨2, 3, 5, 1, 4⟩
    false 3 7 rfl (by decide) (by decide)

theorem list_foldl_invariant {α β : Type} (f : α → β → α) (P : α → Prop) :
    ∀ (l : List β) (a : α), P a → (∀ a b, P a → P (f a b)) →
      P (List.foldl f a l)
  | [], _, ha, _ => ha
  | b :: l, a, ha, hstep =>
      list_foldl_invariant f P l (f a b) (hstep a b ha) hstep

/-- A search accumulator never pairs a non-`0` candidate type with
candidate frame 0. -/
def goodSearch (s : SearchState) : Prop := s.bestType ≠ 0 → s.bestFrame ≠ 0

theorem dfsLeaf_good (cfg : Cfg) (targetPage fi vab pf pi : Nat)
    (s : SearchState) (hfi : fi ≠ 0) (hs : goodSearch s) :
    goodSearch (dfsLeaf cfg targetPage fi vab pf pi s) := by
  intro h0
  simp only [dfsLeaf] at h0 ⊢
  split_ifs at h0 ⊢ <;> first | exact hfi | exact hs h0

theorem dfsSearch_good (cfg : Cfg) (ram : Nat → Int) (targetPage : Nat) :
    ∀ (fuel fi vab pf pi : Nat) (s : SearchState), goodSearch s →
      goodSearch (dfsSearch cfg ram targetPage fuel fi vab pf pi s)
  | 0, fi, vab, pf, pi, s, hs => by
      by_cases hg : fi = 0 ∨ NUM_FRAMES cfg ≤ fi
      · simpa only [dfsSearch, if_pos hg] using hs
      · have hfi : fi ≠ 0 := fun h => hg (Or.inl h)
        simp only [dfsSearch, if_neg hg]
        apply dfsLeaf_good cfg targetPage fi vab pf pi _ hfi
        split <;> exact hs
  | fuel + 1, fi, vab, pf, pi, s, hs => by
      by_cases hg : fi = 0 ∨ NUM_FRAMES cfg ≤ fi
      · simpa only [dfsSearch, if_pos hg] using hs
      · have hfi : fi ≠ 0 := fun h => hg (Or.inl h)
        have hstep : ∀ (a : Bool × Bool × SearchState) (b : Nat),
            goodSearch a.2.2 →
            goodSearch ((dfsStep cfg ram (dfsSearch cfg ram targetPage fuel)
              fi vab (TABLES_DEPTH cfg - (fuel + 1))
              (extractBits cfg (targetPage <<< cfg.offsetWidth)
                (TABLES_DEPTH cfg - (fuel + 1))) a b).2.2) := by
          intro a b ha
          by_cases he : ram (fi * PAGE_SIZE cfg + b) ≠ 0
          · simp only [dfsStep, if_pos he]
            exact dfsSearch_good cfg ram targetPage fuel _ _ _ _ _ ha
          · simp only [dfsStep, if_neg he]
            exact ha
        by_cases hmf : s.maxFrame < fi
        · have hacc := list_foldl_invariant
            (dfsStep cfg ram (dfsSearch cfg ram targetPage fuel) fi vab
              (TABLES_DEPTH cfg - (fuel + 1))
              (extractBits cfg (targetPage <<< cfg.offsetWidth)
                (TABLES_DEPTH cfg - (fuel + 1))))
            (fun acc => goodSearch acc.2.2)
            (List.range (PAGE_SIZE cfg))
            ((true, false, { s with maxFrame := fi }) :
              Bool × Bool × SearchState)
            hs hstep
          simp only [dfsSearch, if_neg hg, if_pos hmf]
          split
          · intro _
            exact hfi
          · exact hacc
        · have hacc := list_foldl_invariant
            (dfsStep cfg ram (dfsSearch cfg ram targetPage fuel) fi vab
              (TABLES_DEPTH cfg - (fuel + 1))
              (extractBits cfg (targetPage <<< cfg.offsetWidth)
                (TABLES_DEPTH cfg - (fuel + 1))))
            (fun acc => goodSearch acc.2.2)
            (List.range (PAGE_SIZE cfg))
            ((true, false, s) : Bool × Bool × SearchState)
            hs hstep
          simp only [dfsSearch, if_neg hg, if_neg hmf]
          split
          · intro _
            exact hfi
          · exact hacc

theorem rootStep_good (cfg : Cfg) (ram : Nat → Int) (targetPage : Nat)
    (s : SearchState) (i : Nat) (hs : goodSearch s) :
    goodSearch (rootStep cfg ram targetPage s i) := by
  by_cases he : ram i ≠ 0
  · simp only [rootStep, if_pos he]
    exact dfsSearch_good cfg ram targetPage _ _ _ _ _ _ hs
  · simp only [rootStep, if_neg he]
    exact hs

/-- C8: the frame finder never returns frame 0 (for any RAM contents and
any target page, as long as there is more than one frame — the
representative configuration has four), hence in particular on every tree
state reachable through the public operations; the translator therefore
never installs frame 0 either. -/
theorem claim8_findFrame_never_zero (cfg : Cfg) (ram : Nat → Int)
    (targetPage : Nat) (h : 1 < NUM_FRAMES cfg) :
    (findFrame cfg ram targetPage).frame ≠ 0 := by
  have hgood : goodSearch (List.foldl (rootStep cfg ram targetPage)
      initialSearch (List.range (PAGE_SIZE cfg))) :=
    list_foldl_invariant (rootStep cfg ram targetPage) goodSearch
      (List.range (PAGE_SIZE cfg)) initialSearch
      (fun h0 => absurd rfl h0)
      (fun a b ha => rootStep_good cfg ram targetPage a b ha)
  unfold findFrame
  set s := List.foldl (rootStep cfg ram targetPage) initialSearch
    (List.range (PAGE_SIZE cfg)) with hsdef
  show (FFResult.mk _ _ _ _ _).frame ≠ 0
  simp only
  split_ifs with h1 h2 h2
  · simp at h2
  · simp
  · simp
  · by_cases ht : s.bestType = 0
    · have : ¬(s.bestFrame = 0 ∧ s.bestType = 0) := h2
      tauto
    · exact hgood ht

/-- Witness for C8 at the representative constants, fresh RAM, target
page 0. -/
theorem claim8_witness :
    (findFrame specCfg initialState.ram 0).frame ≠ 0 :=
  claim8_findFrame_never_zero specCfg initialState.ram 0 (by decide)

end VMem

namespace VMem

/-- C10: if, during translation of an in-range address, `findFrame` hands
back frame 0 or a frame at least `NUM_FRAMES`, the level loop returns
physical address 0 — a valid address (word 0 of the root table), not the
`INVALID_PHYSICAL_ADDRESS` sentinel (`none`) — with the state untouched;
consequently `VMread` reports success 1 and reads the root table's first
word, and `VMwrite` reports success 1 and overwrites the root table's first
word. -/
theorem claim10_badFrame_silent_success (cfg : Cfg) (v : Nat) :
    (∀ (st : PMState) (fuel cf : Nat),
        st.ram (cf * PAGE_SIZE cfg +
          extractBits cfg v (TABLES_DEPTH cfg - (fuel + 1))) = 0 →
        cf * PAGE_SIZE cfg +
          extractBits cfg v (TABLES_DEPTH cfg - (fuel + 1)) < RAM_SIZE cfg →
        ((findFrame cfg st.ram (getPageNumber cfg v)).frame = 0 ∨
          NUM_FRAMES cfg ≤ (findFrame cfg st.ram (getPageNumber cfg v)).frame) →
        translateLoop cfg v (fuel + 1) cf st = (some 0, st)) ∧
    (∀ (st st2 : PMState), v < VIRTUAL_MEMORY_SIZE cfg →
        translateAddress cfg st v = (some 0, st2) →
        VMread cfg st v = (1, some (st2.ram 0), st2) ∧
        ∀ (x : Int), (VMwrite cfg st v x).1 = 1 ∧
          (VMwrite cfg st v x).2.ram 0 = x) := by
  constructor
  · intro st fuel cf h0 hlt hbad
    simp only [translateLoop, PMreadVal]
    rw [if_neg (by omega), if_pos h0, if_pos hbad]
  · intro st st2 hv htr
    have hv2 : ¬ VIRTUAL_MEMORY_SIZE cfg ≤ v := by omega
    refine ⟨?_, fun x => ⟨?_, ?_⟩⟩
    · simp [VMread, hv2, htr, PMreadVal]
    · simp [VMwrite, hv2, htr]
    · simp [VMwrite, hv2, htr, PMwriteT]

/-- A degenerate configuration with a single frame
(`OFFSET_WIDTH = PHYSICAL_ADDRESS_WIDTH = 1`): the finder's fallback cannot
fire and it returns frame 0, exercising the C10 path. -/
def tinyCfg : Cfg := ⟨1, 1, 2⟩

/-- Witness for C10 on `tinyCfg`: at the very first fault `findFrame`
returns frame 0, translation yields physical address 0 and both accessors
report success. -/
theorem claim10_witness :
    (translateLoop tinyCfg 0 1 0 initialState).1 = some 0 ∧
    (VMread tinyCfg initialState 0).1 = 1 ∧
    (VMwrite tinyCfg initialState 0 5).1 = 1 := by
  have h := claim10_badFrame_silent_success tinyCfg 0
  have h1 : translateLoop tinyCfg 0 1 0 initialState = (some 0, initialState) :=
    h.1 initialState 0 0 rfl (by decide) (by decide)
  have htr : translateAddress tinyCfg initialState 0 = (some 0, initialState) :=
    h1
  have h2 := h.2 initialState initialState (by decide) htr
  exact ⟨by rw [h1], by rw [h2.1], (h2.2 5).1⟩

end VMem

namespace VMem

theorem PS_spec : PAGE_SIZE specCfg = 16 := rfl

theorem RAMS_spec : RAM_SIZE specCfg = 64 := rfl

theorem NF_spec : NUM_FRAMES specCfg = 4 := rfl

theorem TD_spec : TABLES_DEPTH specCfg = 2 := rfl

theorem VMS_spec : VIRTUAL_MEMORY_SIZE specCfg = 4096 := rfl

@[simp]
theorem PMwriteT_ram (cfg : Cfg) (st : PMState) (pa : Nat) (w : Int) :
    (PMwriteT cfg st pa w).ram = Function.update st.ram pa w := rfl

@[simp]
theorem PMwriteT_swap (cfg : Cfg) (st : PMState) (pa : Nat) (w : Int) :
    (PMwriteT cfg st pa w).swap = st.swap := rfl

theorem PMrestoreT_none_ram (cfg : Cfg) (st : PMState) (f q : Nat)
    (h : st.swap q = none) : (PMrestoreT cfg st f q).ram = st.ram := by
  unfold PMrestoreT
  rw [h]

theorem PMrestoreT_none_swap (cfg : Cfg) (st : PMState) (f q : Nat)
    (h : st.swap q = none) : (PMrestoreT cfg st f q).swap = st.swap := by
  unfold PMrestoreT
  rw [h]

theorem list_foldl_id {α β : Type} (f : α → β → α) :
    ∀ (l : List β) (a : α), (∀ b ∈ l, ∀ a, f a b = a) → List.foldl f a l = a
  | [], _, _ => rfl
  | b :: l, a, h => by
      rw [List.foldl_cons, h b (List.mem_cons_self b l)]
      exact list_foldl_id f l a (fun c hc a2 => h c (List.mem_cons_of_mem b hc) a2)

theorem rootStep_zero (cfg : Cfg) (ram : Nat → Int) (p : Nat)
    (s : SearchState) (i : Nat) (h : ram i = 0) :
    rootStep cfg ram p s i = s := by
  simp [rootStep, h]

theorem dfsStep_zero (cfg : Cfg) (ram : Nat → Int)
    (rec : Nat → Nat → Nat → Nat → SearchState → SearchState)
    (fi vab depth targetBits : Nat) (acc : Bool × Bool × SearchState)
    (i : Nat) (h : ram (fi * PAGE_SIZE cfg + i) = 0) :
    dfsStep cfg ram rec fi vab depth targetBits acc i = acc := by
  simp [dfsStep, h]

theorem extractBits_lt (cfg : Cfg) (v d : Nat) :
    extractBits cfg v d < PAGE_SIZE cfg := by
  unfold extractBits PAGE_SIZE
  rw [Nat.and_pow_two_sub_one_eq_mod]
  exact Nat.mod_lt _ (pow_pos (by norm_num) _)

theorem getOffset_lt (cfg : Cfg) (v : Nat) :
    getOffset cfg v < PAGE_SIZE cfg := by
  unfold getOffset PAGE_SIZE
  rw [Nat.and_pow_two_sub_one_eq_mod]
  exact Nat.mod_lt _ (pow_pos (by norm_num) _)

/-- In a state whose root table (frame 0) is entirely zero, the finder
visits nothing and hands out frame 1 as an `UNUSED` frame. -/
theorem findFrame_rootZero (ram : Nat → Int) (p : Nat)
    (h : ∀ i < 16, ram i = 0) :
    findFrame specCfg ram p = ⟨1, 2, 0, 0, 0⟩ := by
  unfold findFrame
  have hfold := list_foldl_id (rootStep specCfg ram p)
    (List.range (PAGE_SIZE specCfg)) initialSearch
    (fun b hb a => rootStep_zero specCfg ram p a b (h b (List.mem_range.mp hb)))
  rw [hfold]
  decide

theorem intToU64_one : intToU64 1 = 1 := by decide

/-- The DFS entering the all-zero table frame 1 (one level below the root)
classifies it as an `EMPTY_TABLE` candidate with parent slot `(0, i0)` —
regardless of the target page, i.e. even when `(0, i0)` lies on the
target's path. -/
theorem dfsSearch_frame1_empty (ram : Nat → Int) (p vab i0 : Nat)
    (hf1 : ∀ j < 16, ram (16 + j) = 0) :
    dfsSearch specCfg ram p 1 1 vab 0 i0 initialSearch =
      ⟨1, 1, 0, 0, i0, 1, 0⟩ := by
  show dfsSearch specCfg ram p (0 + 1) 1 vab 0 i0 initialSearch = _
  simp only [dfsSearch]
  rw [if_neg (by decide : ¬((1 : Nat) = 0 ∨ NUM_FRAMES specCfg ≤ 1))]
  rw [if_pos (by decide : initialSearch.maxFrame < 1)]
  rw [list_foldl_id _ _ _ (fun b hb (acc : Bool × Bool × SearchState) =>
    dfsStep_zero specCfg ram _ 1 vab _ _ acc b
      (by simpa using hf1 b (List.mem_range.mp hb)))]
  simp [initialSearch]

/-- The finder on a state whose root has the single non-zero slot `i0`
pointing to the all-zero table frame 1: it returns frame 1 as an
`EMPTY_TABLE` with parent `(0, i0)`. -/
theorem findFrame_justCreated (ram : Nat → Int) (p i0 : Nat) (hi0 : i0 < 16)
    (h1 : ram i0 = 1)
    (hroot : ∀ i < 16, i ≠ i0 → ram i = 0)
    (hf1 : ∀ j < 16, ram (16 + j) = 0) :
    findFrame specCfg ram p = ⟨1, 1, 0, 0, i0⟩ := by
  have hsplit : List.range (PAGE_SIZE specCfg) =
      List.range' 0 i0 ++ i0 :: List.range' (i0 + 1) (15 - i0) := by
    rw [PS_spec, List.range_eq_range']
    have e1 := List.range'_append_1 0 i0 (16 - i0)
    rw [Nat.zero_add] at e1
    rw [show (16 - i0) + i0 = 16 from by omega] at e1
    rw [← e1]
    congr 1
    rw [show 16 - i0 = (15 - i0) + 1 from by omega, List.range'_succ]
  have hfold1 : List.foldl (rootStep specCfg ram p) initialSearch
      (List.range' 0 i0) = initialSearch :=
    list_foldl_id _ _ _ (fun b hb a => rootStep_zero specCfg ram p a b (by
      have hm := List.mem_range'_1.mp hb
      exact hroot b (by omega) (by omega)))
  have hstep0 : rootStep specCfg ram p initialSearch i0 =
      ⟨1, 1, 0, 0, i0, 1, 0⟩ := by
    simp only [rootStep, h1]
    rw [if_pos (by decide : ¬(1 : Int) = 0)]
    rw [intToU64_one]
    exact dfsSearch_frame1_empty ram p _ i0 hf1
  have hfold2 : List.foldl (rootStep specCfg ram p)
      (⟨1, 1, 0, 0, i0, 1, 0⟩ : SearchState)
      (List.range' (i0 + 1) (15 - i0)) = ⟨1, 1, 0, 0, i0, 1, 0⟩ :=
    list_foldl_id _ _ _ (fun b hb a => rootStep_zero specCfg ram p a b (by
      have hm := List.mem_range'_1.mp hb
      exact hroot b (by omega) (by omega)))
  unfold findFrame
  rw [hsplit, List.foldl_append, List.foldl_cons, hfold1, hstep0, hfold2]
  simp

end VMem

namespace VMem

theorem clearFold_swap (cfg : Cfg) (f : Nat) :
    ∀ (l : List Nat) (st : PMState),
      (List.foldl (fun st i => PMwriteT cfg st (f * PAGE_SIZE cfg + i) 0) st
        l).swap = st.swap
  | [], _ => rfl
  | i :: l, st => by
      rw [List.foldl_cons, clearFold_swap cfg f l]
      rfl

theorem clearFold_ram_preserve (cfg : Cfg) (f : Nat) :
    ∀ (l : List Nat) (st : PMState) (a : Nat),
      (∀ i ∈ l, a ≠ f * PAGE_SIZE cfg + i) →
      (List.foldl (fun st i => PMwriteT cfg st (f * PAGE_SIZE cfg + i) 0) st
        l).ram a = st.ram a
  | [], _, _, _ => rfl
  | i :: l, st, a, h => by
      rw [List.foldl_cons, clearFold_ram_preserve cfg f l _ a
        (fun k hk => h k (List.mem_cons_of_mem i hk))]
      simp [Function.update_apply, h i (List.mem_cons_self i l)]

theorem clearFold_ram_mem (cfg : Cfg) (f : Nat) :
    ∀ (l : List Nat) (st : PMState) (j : Nat), j ∈ l →
      (List.foldl (fun st i => PMwriteT cfg st (f * PAGE_SIZE cfg + i) 0) st
        l).ram (f * PAGE_SIZE cfg + j) = 0
  | i :: l, st, j, hj => by
      by_cases hjl : j ∈ l
      · rw [List.foldl_cons]
        exact clearFold_ram_mem cfg f l _ j hjl
      · have hji : j = i := by
          rcases List.mem_cons.mp hj with h | h
          · exact h
          · exact absurd h hjl
        subst hji
        rw [List.foldl_cons, clearFold_ram_preserve cfg f l
          (PMwriteT cfg st (f * PAGE_SIZE cfg + j) 0) (f * PAGE_SIZE cfg + j)
          (fun k hk heq => hjl ((show j = k by omega) ▸ hk))]
        simp

theorem clearFrame_swap (cfg : Cfg) (st : PMState) (f : Nat) :
    (clearFrame cfg st f).swap = st.swap :=
  clearFold_swap cfg f (List.range (PAGE_SIZE cfg)) st

theorem clearFrame_ram_in (cfg : Cfg) (st : PMState) (f j : Nat)
    (hj : j < PAGE_SIZE cfg) :
    (clearFrame cfg st f).ram (f * PAGE_SIZE cfg + j) = 0 :=
  clearFold_ram_mem cfg f (List.range (PAGE_SIZE cfg)) st j
    (List.mem_range.mpr hj)

theorem clearFrame_ram_out (cfg : Cfg) (st : PMState) (f a : Nat)
    (h : ∀ i < PAGE_SIZE cfg, a ≠ f * PAGE_SIZE cfg + i) :
    (clearFrame cfg st f).ram a = st.ram a :=
  clearFold_ram_preserve cfg f (List.range (PAGE_SIZE cfg)) st a
    (fun i hi => h i (List.mem_range.mp hi))

theorem translateLoop_zero (cfg : Cfg) (v cf : Nat) (st : PMState) :
    translateLoop cfg v 0 cf st =
      if RAM_SIZE cfg ≤ cf * PAGE_SIZE cfg + getOffset cfg v then (none, st)
      else (some (cf * PAGE_SIZE cfg + getOffset cfg v), st) := rfl

theorem translateLoop_succ (cfg : Cfg) (v fuel cf : Nat) (st : PMState) :
    translateLoop cfg v (fuel + 1) cf st =
      if RAM_SIZE cfg ≤
          cf * PAGE_SIZE cfg + extractBits cfg v (TABLES_DEPTH cfg - (fuel + 1))
        then (none, st)
      else if PMreadVal st (cf * PAGE_SIZE cfg +
          extractBits cfg v (TABLES_DEPTH cfg - (fuel + 1))) = 0 then
        (if (findFrame cfg st.ram (getPageNumber cfg v)).frame = 0 ∨
            NUM_FRAMES cfg ≤ (findFrame cfg st.ram (getPageNumber cfg v)).frame
          then (some 0, st)
         else translateLoop cfg v fuel
           (findFrame cfg st.ram (getPageNumber cfg v)).frame
           (commitFrame cfg st (findFrame cfg st.ram (getPageNumber cfg v))
             (decide (TABLES_DEPTH cfg - (fuel + 1) < TABLES_DEPTH cfg - 1))
             (cf * PAGE_SIZE cfg +
               extractBits cfg v (TABLES_DEPTH cfg - (fuel + 1)))
             (getPageNumber cfg v)))
      else translateLoop cfg v fuel
        (intToU64 (PMreadVal st (cf * PAGE_SIZE cfg +
          extractBits cfg v (TABLES_DEPTH cfg - (fuel + 1))))) st := rfl

/-- Symbolic execution of `translateAddress` under the reachable-state
invariant (root table all zero, swap empty) at the representative
constants: both levels fault, the level-0 fault takes frame 1 as `UNUSED`
and the level-1 fault takes the very table just created as `EMPTY_TABLE`
(unlinking it from the root again), so the call ends with the root все
zero, the swap untouched, and physical address `16 + offset` inside
frame 1. -/
theorem translate_inv (st : PMState) (v : Nat)
    (hroot : ∀ i < 16, st.ram i = 0)
    (hswap : ∀ q, st.swap q = none)
    (_hv : v < 4096) :
    ∃ stF : PMState,
      translateAddress specCfg st v =
        (some (16 + getOffset specCfg v), stF) ∧
      (∀ i < 16, stF.ram i = 0) ∧ (∀ q, stF.swap q = none) := by
  have hi0 : extractBits specCfg v 0 < 16 := extractBits_lt specCfg v 0
  have hi1 : extractBits specCfg v 1 < 16 := extractBits_lt specCfg v 1
  have hoff : getOffset specCfg v < 16 := getOffset_lt specCfg v
  set st1 : PMState := PMwriteT specCfg (clearFrame specCfg st 1)
    (extractBits specCfg v 0) (Int.ofNat 1) with hst1
  have hst1i0 : st1.ram (extractBits specCfg v 0) = 1 := by
    rw [hst1]
    simp
  have hst1rootZ : ∀ i < 16, i ≠ extractBits specCfg v 0 → st1.ram i = 0 := by
    intro i hilt hine
    rw [hst1]
    simp only [PMwriteT_ram]
    rw [Function.update_noteq hine]
    rw [clearFrame_ram_out specCfg st 1 i (fun k hk => by
      have hps : PAGE_SIZE specCfg = 16 := PS_spec
      omega)]
    exact hroot i hilt
  have hst1f1 : ∀ j < 16, st1.ram (16 + j) = 0 := by
    intro j hj
    rw [hst1]
    simp only [PMwriteT_ram]
    rw [Function.update_noteq (by omega : (16 + j : Nat) ≠ extractBits specCfg v 0)]
    have h16 : (16 + j : Nat) = 1 * PAGE_SIZE specCfg + j := by
      have hps : PAGE_SIZE specCfg = 16 := rfl
      omega
    rw [h16]
    exact clearFrame_ram_in specCfg st 1 j (by rw [PS_spec]; exact hj)
  have hst1swap : ∀ q, st1.swap q = none := by
    intro q
    rw [hst1]
    simp only [PMwriteT_swap, clearFrame_swap]
    exact hswap q
  set st2 : PMState := PMwriteT specCfg st1 (extractBits specCfg v 0) 0
    with hst2
  have hst2swap : ∀ q, st2.swap q = none := by
    intro q
    rw [hst2]
    simp only [PMwriteT_swap]
    exact hst1swap q
  set stR : PMState := PMrestoreT specCfg st2 1 (getPageNumber specCfg v)
    with hstR
  have hR_ram : stR.ram = st2.ram := by
    rw [hstR]
    exact PMrestoreT_none_ram specCfg st2 1 (getPageNumber specCfg v)
      (hst2swap _)
  have hR_swap : stR.swap = st2.swap := by
    rw [hstR]
    exact PMrestoreT_none_swap specCfg st2 1 (getPageNumber specCfg v)
      (hst2swap _)
  set st4 : PMState := PMwriteT specCfg stR (16 + extractBits specCfg v 1)
    (Int.ofNat 1) with hst4
  have hstFroot : ∀ i < 16, st4.ram i = 0 := by
    intro i hilt
    rw [hst4]
    simp only [PMwriteT_ram]
    rw [Function.update_noteq (by omega : i ≠ 16 + extractBits specCfg v 1)]
    rw [hR_ram, hst2]
    simp only [PMwriteT_ram]
    by_cases hii : i = extractBits specCfg v 0
    · subst hii
      simp
    · rw [Function.update_noteq hii]
      exact hst1rootZ i hilt hii
  have hstFswap : ∀ q, st4.swap q = none := by
    intro q
    rw [hst4]
    simp only [PMwriteT_swap]
    rw [hR_swap]
    exact hst2swap q
  refine ⟨st4, ?_, hstFroot, hstFswap⟩
  have e0 : translateAddress specCfg st v =
      translateLoop specCfg v (1 + 1) 0 st := rfl
  rw [e0, translateLoop_succ]
  rw [show TABLES_DEPTH specCfg - (1 + 1) = 0 from rfl]
  rw [show (0 : Nat) * PAGE_SIZE specCfg + extractBits specCfg v 0 =
    extractBits specCfg v 0 from by omega]
  rw [if_neg (show ¬ RAM_SIZE specCfg ≤ extractBits specCfg v 0 by
    have h64 : RAM_SIZE specCfg = 64 := rfl
    omega)]
  rw [if_pos (show PMreadVal st (extractBits specCfg v 0) = 0 from
    hroot _ hi0)]
  rw [findFrame_rootZero st.ram (getPageNumber specCfg v) hroot]
  rw [show (⟨1, 2, 0, 0, 0⟩ : FFResult).frame = 1 from rfl]
  rw [if_neg (by decide : ¬((1 : Nat) = 0 ∨ NUM_FRAMES specCfg ≤ 1))]
  have hcommit1 : commitFrame specCfg st ⟨1, 2, 0, 0, 0⟩
      (decide (0 < TABLES_DEPTH specCfg - 1)) (extractBits specCfg v 0)
      (getPageNumber specCfg v) = st1 := by
    rw [hst1]
    rw [show decide (0 < TABLES_DEPTH specCfg - 1) = true from rfl]
    simp [commitFrame]
  rw [hcommit1]
  rw [translateLoop_succ]
  rw [show TABLES_DEPTH specCfg - (0 + 1) = 1 from rfl]
  rw [show (1 : Nat) * PAGE_SIZE specCfg + extractBits specCfg v 1 =
    16 + extractBits specCfg v 1 by
      have hps : PAGE_SIZE specCfg = 16 := rfl
      omega]
  rw [if_neg (show ¬ RAM_SIZE specCfg ≤ 16 + extractBits specCfg v 1 by
    have h64 : RAM_SIZE specCfg = 64 := rfl
    omega)]
  rw [if_pos (show PMreadVal st1 (16 + extractBits specCfg v 1) = 0 from
    hst1f1 _ hi1)]
  rw [findFrame_justCreated st1.ram (getPageNumber specCfg v)
    (extractBits specCfg v 0) hi0 hst1i0 hst1rootZ hst1f1]
  rw [show (⟨1, 1, 0, 0, extractBits specCfg v 0⟩ : FFResult).frame = 1
    from rfl]
  rw [if_neg (by decide : ¬((1 : Nat) = 0 ∨ NUM_FRAMES specCfg ≤ 1))]
  have hcommit2 : commitFrame specCfg st1
      (⟨1, 1, 0, 0, extractBits specCfg v 0⟩ : FFResult)
      (decide ((1 : Nat) < 1))
      (16 + extractBits specCfg v 1) (getPageNumber specCfg v) = st4 := by
    rw [hst4, hstR, hst2]
    rw [show decide ((1 : Nat) < 1) = false from rfl]
    simp only [commitFrame, removeReference]
    rw [if_pos (⟨by decide, by rw [PS_spec]; exact hi0⟩ :
      (0 : Nat) < NUM_FRAMES specCfg ∧
        extractBits specCfg v 0 < PAGE_SIZE specCfg)]
    rw [show (0 : Nat) * PAGE_SIZE specCfg + extractBits specCfg v 0 =
      extractBits specCfg v 0 from by omega]
    simp
  rw [hcommit2]
  rw [translateLoop_zero]
  rw [show (1 : Nat) * PAGE_SIZE specCfg + getOffset specCfg v =
    16 + getOffset specCfg v by
      have hps : PAGE_SIZE specCfg = 16 := rfl
      omega]
  rw [if_neg (show ¬ RAM_SIZE specCfg ≤ 16 + getOffset specCfg v by
    have h64 : RAM_SIZE specCfg = 64 := rfl
    omega)]

end VMem

namespace VMem

theorem rootClearFold_swap (cfg : Cfg) :
    ∀ (l : List Nat) (st : PMState),
      (List.foldl (fun st i => PMwriteT cfg st i 0) st l).swap = st.swap
  | [], _ => rfl
  | i :: l, st => by
      rw [List.foldl_cons, rootClearFold_swap cfg l]
      rfl

theorem rootClearFold_ram_preserve (cfg : Cfg) :
    ∀ (l : List Nat) (st : PMState) (a : Nat), a ∉ l →
      (List.foldl (fun st i => PMwriteT cfg st i 0) st l).ram a = st.ram a
  | [], _, _, _ => rfl
  | i :: l, st, a, h => by
      have hne : a ≠ i := fun heq => h (by rw [heq]; exact List.mem_cons_self i l)
      rw [List.foldl_cons, rootClearFold_ram_preserve cfg l _ a
        (fun hm => h (List.mem_cons_of_mem i hm))]
      simp [Function.update_apply, hne]

theorem rootClearFold_ram_mem (cfg : Cfg) :
    ∀ (l : List Nat) (st : PMState) (j : Nat), j ∈ l →
      (List.foldl (fun st i => PMwriteT cfg st i 0) st l).ram j = 0
  | i :: l, st, j, hj => by
      by_cases hjl : j ∈ l
      · rw [List.foldl_cons]
        exact rootClearFold_ram_mem cfg l _ j hjl
      · have hji : j = i := by
          rcases List.mem_cons.mp hj with h | h
          · exact h
          · exact absurd h hjl
        subst hji
        rw [List.foldl_cons, rootClearFold_ram_preserve cfg l _ j hjl]
        simp

theorem inv_vmInit (st : PMState)
    (hswap : ∀ q, st.swap q = none) :
    (∀ i < 16, (VMinitializeRoot specCfg st).ram i = 0) ∧
    (∀ q, (VMinitializeRoot specCfg st).swap q = none) := by
  constructor
  · intro i hi
    exact rootClearFold_ram_mem specCfg (List.range (PAGE_SIZE specCfg)) st i
      (List.mem_range.mpr (by rw [PS_spec]; exact hi))
  · intro q
    rw [show (VMinitializeRoot specCfg st).swap = st.swap from
      rootClearFold_swap specCfg (List.range (PAGE_SIZE specCfg)) st]
    exact hswap q

theorem inv_read (st : PMState) (v : Nat)
    (hroot : ∀ i < 16, st.ram i = 0) (hswap : ∀ q, st.swap q = none) :
    (∀ i < 16, (VMread specCfg st v).2.2.ram i = 0) ∧
    (∀ q, (VMread specCfg st v).2.2.swap q = none) := by
  by_cases hv : VIRTUAL_MEMORY_SIZE specCfg ≤ v
  · have hX : (VMread specCfg st v).2.2 = st := by simp [VMread, hv]
    rw [hX]
    exact ⟨hroot, hswap⟩
  · have hv4 : v < 4096 := by
      have h4 : VIRTUAL_MEMORY_SIZE specCfg = 4096 := rfl
      omega
    obtain ⟨stF, htr, hrootF, hswapF⟩ := translate_inv st v hroot hswap hv4
    have hX : (VMread specCfg st v).2.2 = stF := by simp [VMread, hv, htr]
    rw [hX]
    exact ⟨hrootF, hswapF⟩

theorem inv_write (st : PMState) (v : Nat) (x : Int)
    (hroot : ∀ i < 16, st.ram i = 0) (hswap : ∀ q, st.swap q = none) :
    (∀ i < 16, (VMwrite specCfg st v x).2.ram i = 0) ∧
    (∀ q, (VMwrite specCfg st v x).2.swap q = none) := by
  by_cases hv : VIRTUAL_MEMORY_SIZE specCfg ≤ v
  · have hX : (VMwrite specCfg st v x).2 = st := by simp [VMwrite, hv]
    rw [hX]
    exact ⟨hroot, hswap⟩
  · have hv4 : v < 4096 := by
      have h4 : VIRTUAL_MEMORY_SIZE specCfg = 4096 := rfl
      omega
    obtain ⟨stF, htr, hrootF, hswapF⟩ := translate_inv st v hroot hswap hv4
    have hX : (VMwrite specCfg st v x).2 =
        PMwriteT specCfg stF (16 + getOffset specCfg v) x := by
      simp [VMwrite, hv, htr]
    rw [hX]
    constructor
    · intro i hi
      simp only [PMwriteT_ram]
      rw [Function.update_noteq (by omega : i ≠ 16 + getOffset specCfg v)]
      exact hrootF i hi
    · intro q
      simp only [PMwriteT_swap]
      exact hswapF q

/-- The inductive invariant of every reachable state under the
representative constants: the root table is entirely zero and the swap map
is empty.  (Each in-range access faults at level 0, takes frame 1 as
`UNUSED`, then at level 1 the finder re-selects the table just created as
`EMPTY_TABLE` and unlinks it from the root, so the call never reaches an
`EVICT` and leaves the root empty again.) -/
theorem reachable_inv (st : PMState) (h : Reachable specCfg st) :
    (∀ i < 16, st.ram i = 0) ∧ (∀ q, st.swap q = none) := by
  induction h with
  | init => exact ⟨fun i _ => rfl, fun q => rfl⟩
  | vmInit _ ih => exact inv_vmInit _ ih.2
  | read v _ ih => exact inv_read _ v ih.1 ih.2
  | write v x _ ih => exact inv_write _ v x ih.1 ih.2

/-- C7: after any sequence of public operations, no page index is both in
the swap map and mapped by a leaf frame of the table tree.  On this code
the property holds in a degenerate way: on every reachable state the swap
map is empty (`reachable_inv`) because the frame-finder bug makes each
fault collapse the freshly built path before any eviction can occur, so
`PMevict` is never reached. -/
theorem claim7_swap_disjoint_from_resident (st : PMState) (q : Nat)
    (h : Reachable specCfg st) :
    ¬((st.swap q).isSome = true ∧ residentLeaf specCfg st q = true) := by
  intro hc
  have hswap := (reachable_inv st h).2 q
  rw [hswap] at hc
  exact absurd hc.1 (by simp)

/-- Witness for C7 at the initial state and page 0. -/
theorem claim7_witness :
    ¬((initialState.swap 0).isSome = true ∧
      residentLeaf specCfg initialState 0 = true) :=
  claim7_swap_disjoint_from_resident initialState 0 Reachable.init

end VMem
